import Mathlib

/-!
Verification of the static-asset serving layer (`static/assets.go`).

The Go source is shallowly embedded below: the path-manipulation helpers it
uses from the Go standard library (`strings.TrimPrefix`, `filepath.Clean`,
`filepath.Join`, `fs.ValidPath`) are modelled over `List Char`, the two
asset sources (`embed.FS` and `os.DirFS`) are modelled as association lists
of entries, and the handler `fileHandler2` together with the middleware
`mwSetCacheControl` and the factory `NewAssetHandler` are translated
statement by statement.
-/

/-- Go `strings.TrimPrefix(s, "/")`: removes one leading slash if present. -/
def trimSlash (s : String) : String :=
  match s.data with
  | '/' :: rest => ⟨rest⟩
  | _ => s

/-- Split a character list on the slash character; mirrors how Go's
`path.Clean` and `fs.ValidPath` walk slash-separated elements.  The result
is always nonempty: an empty input yields one empty segment. -/
def splitOnSlash : List Char → List (List Char)
  | [] => [[]]
  | c :: rest =>
    if c = '/' then [] :: splitOnSlash rest
    else
      match splitOnSlash rest with
      | [] => [[c]]
      | s :: ss => (c :: s) :: ss

/-- Inverse of `splitOnSlash`: interleave the segments with slashes. -/
def joinSlash : List (List Char) → List Char
  | [] => []
  | [s] => s
  | s :: ss => s ++ '/' :: joinSlash ss

/-- A segment survives the first pass of Go `path.Clean` iff it is neither
empty (double slash) nor a lone dot. -/
def keepSeg (s : List Char) : Bool :=
  if s = [] then false else if s = ['.'] then false else true

/-- One step of the dot-dot elimination loop of Go `path.Clean`.  The
accumulator holds the output segments in reverse order. -/
def cleanStep (rooted : Bool) (acc : List (List Char)) (s : List Char) :
    List (List Char) :=
  if s = ['.', '.'] then
    match acc with
    | [] => if rooted then [] else [['.', '.']]
    | a :: rest => if a = ['.', '.'] then s :: acc else rest
  else s :: acc

/-- The dot-dot elimination loop of Go `path.Clean` over the kept segments. -/
def cleanSegs (rooted : Bool) (segs : List (List Char)) : List (List Char) :=
  segs.foldl (cleanStep rooted) []

/-- Whether a character list begins with a slash (a rooted Go path). -/
def isRooted : List Char → Bool
  | [] => false
  | c :: _ => decide (c = '/')

/-- Go `path.Clean` (= `filepath.Clean` on Unix) over a character list:
empty input becomes ".", multiple slashes collapse, "." elements vanish,
".." elements cancel a preceding element, leading ".." survives on
non-rooted paths and vanishes on rooted ones. -/
def cleanChars (cs : List Char) : List Char :=
  if cs = [] then ['.']
  else
    let rooted := isRooted cs
    let out := (cleanSegs rooted ((splitOnSlash cs).filter keepSeg)).reverse
    if out = [] then (if rooted then ['/'] else ['.'])
    else (if rooted then ['/'] else []) ++ joinSlash out

/-- Go `filepath.Clean` on a string. -/
def clean (s : String) : String := ⟨cleanChars s.data⟩

/-- Go `filepath.Join(a, b)`: joins the non-empty arguments with a slash and
cleans the result; all-empty arguments give the empty string. -/
def join2 (a b : String) : String :=
  if a = "" then (if b = "" then "" else clean b)
  else clean (a ++ "/" ++ b)

/-- A single element is valid for Go `fs.ValidPath` iff it is nonempty and
neither "." nor "..". -/
def validSeg (s : List Char) : Bool :=
  if s = [] then false else if s = ['.'] then false
  else if s = ['.', '.'] then false else true

/-- Go `fs.ValidPath`: "." names the root; otherwise every slash-separated
element must be nonempty and neither "." nor "..".  This is the check both
`embed.FS` and `os.DirFS` apply before any lookup. -/
def validPath (s : String) : Bool :=
  if s.data = ['.'] then true
  else (splitOnSlash s.data).all validSeg

/-- Whether some slash-separated element of the string is "..": used to
state that a path still contains traversal after cleaning. -/
def hasDotDotSeg (s : String) : Bool :=
  (splitOnSlash s.data).any (fun seg => seg = ['.', '.'])

deriving instance DecidableEq for Except

/-- The errors an `fs.FS.Open` can produce in this model.  `notExist` is the
only kind for which Go `os.IsNotExist` returns true; `invalid` is what
`os.DirFS` returns for names rejected by `fs.ValidPath`; `permission`
stands for any other open failure. -/
inductive OpenError where
  | notExist
  | invalid
  | permission
deriving DecidableEq

/-- A file entry of an asset source: the data the handler can observe from
an opened `fs.File`.  `statOk`/`statMsg` model whether `Stat` succeeds and
the error text when it does not; `seekable` models whether the handle
implements `io.ReadSeeker`; `modTime` is 0 for the zero time (embedded
assets). -/
structure FileData where
  name : String
  size : Nat
  modTime : Nat
  content : String
  statOk : Bool
  statMsg : String
  seekable : Bool
deriving DecidableEq

/-- The metadata returned by a successful `Stat`. -/
structure StatInfo where
  name : String
  size : Nat
  modTime : Nat
deriving DecidableEq

/-- Stat of an opened handle: Go `f.Stat()`. -/
def statOf (fd : FileData) : Except String StatInfo :=
  if fd.statOk then .ok ⟨fd.name, fd.size, fd.modTime⟩ else .error fd.statMsg

/-- HTTP headers as an ordered association list. -/
abbrev Headers := List (String × String)

/-- Remove every entry with the given key (helper for `headerSet`). -/
def removeHeader : Headers → String → Headers
  | [], _ => []
  | (k', v') :: rest, k =>
    if k' = k then removeHeader rest k else (k', v') :: removeHeader rest k

/-- Go `http.Header.Set`: replaces any existing entries for the key. -/
def headerSet (hdrs : Headers) (k v : String) : Headers :=
  removeHeader hdrs k ++ [(k, v)]

/-- Go `http.Header.Add`: appends an entry. -/
def headerAdd (hdrs : Headers) (k v : String) : Headers := hdrs ++ [(k, v)]

/-- First value stored for a key. -/
def getHeader : Headers → String → Option String
  | [], _ => none
  | (k', v) :: rest, k => if k' = k then some v else getHeader rest k

/-- An HTTP response as observed at the handler boundary: status code, the
final header map, and the bytes the handler wrote to the body. -/
structure Response where
  status : Nat
  headers : Headers
  bodyWritten : String
deriving DecidableEq

/-- Outcome of running the handler: a response, or a Go runtime panic
(which net/http turns into an aborted connection, never a response). -/
inductive HResult where
  | resp (r : Response)
  | panicked
deriving DecidableEq

/-- Resource-accounting trace of one request: the names passed to the
source's `Open`, how many opens returned a live handle, and how many
`Close` calls ran (including deferred closes during panic unwinding). -/
structure Trace where
  openCalls : List String
  opened : Nat
  closed : Nat
deriving DecidableEq

/-- An HTTP request; the handler only reads `r.URL.Path`. -/
structure Request where
  path : String
deriving DecidableEq

/-- Whether an HTTP status code permits a response body.  Modelled from
net/http `bodyAllowedForStatus`: 1xx, 204 and 304 carry no body; writes to
such responses are discarded by the server. -/
def bodyAllowed (status : Nat) : Bool :=
  if 100 ≤ status ∧ status ≤ 199 then false
  else if status = 204 then false
  else if status = 304 then false
  else true

/-- The body actually transmitted on the wire for a response. -/
def wireBody (r : Response) : String :=
  if bodyAllowed r.status then r.bodyWritten else ""

/-- Go `http.Error(w, msg, code)`: sets a plain-text content type and the
nosniff header, writes the status, and writes `msg` plus a newline to the
body (the server may still suppress the body, see `wireBody`). -/
def httpError (hdrs : Headers) (msg : String) (code : Nat) : Response :=
  { status := code
  , headers := headerSet (headerSet hdrs "Content-Type" "text/plain; charset=utf-8")
      "X-Content-Type-Options" "nosniff"
  , bodyWritten := msg ++ "\n" }

/-- Error text of an open failure.  Go error strings vary per fs
implementation; they are only ever surfaced in 204 bodies (suppressed on
the wire), so a fixed text per kind is used. -/
def errText : OpenError → String
  | .notExist => "file does not exist"
  | .invalid => "invalid argument"
  | .permission => "permission denied"

/-- Abstract stand-in for Go `mime.TypeByExtension` (a fixed table; no
claim depends on its exact values). -/
def extToMime : String → Option String
  | ".html" => some "text/html; charset=utf-8"
  | ".css" => some "text/css; charset=utf-8"
  | ".js" => some "text/javascript; charset=utf-8"
  | ".svg" => some "image/svg+xml"
  | ".png" => some "image/png"
  | _ => none

/-- Scan of the reversed character list accumulating the extension
(helper for `extOf`). -/
def extScan : List Char → List Char → Option (List Char)
  | [], _ => none
  | c :: rest, acc =>
    if c = '.' then some (c :: acc)
    else if c = '/' then none
    else extScan rest (c :: acc)

/-- Go `filepath.Ext`: the suffix of the last element starting at its final
dot, or empty when the last element has no dot. -/
def extOf (s : String) : String :=
  match extScan s.data.reverse [] with
  | some l => ⟨l⟩
  | none => ""

/-- Abstract stand-in for Go `http.DetectContentType`, a pure function of
the leading content bytes; no claim depends on its value. -/
def sniffMime (_content : String) : String := "application/octet-stream"

/-- Abstract injective rendering of a modification time in place of Go's
`http.TimeFormat`; no claim depends on its exact text. -/
def formatTime (t : Nat) : String := toString t

/-- Go `http.ServeContent` for a plain GET with no conditional or Range
headers: infer the Content-Type from the name's extension (content sniffing
as fallback) unless one is already set, emit Last-Modified only for a
non-zero modification time, respond 200 with the full content. -/
def serveContent (hdrs : Headers) (name : String) (modTime : Nat)
    (content : String) : Response :=
  let hdrs1 :=
    match getHeader hdrs "Content-Type" with
    | some _ => hdrs
    | none =>
      headerSet hdrs "Content-Type"
        (match extToMime (extOf name) with
         | some t => t
         | none => sniffMime content)
  let hdrs2 :=
    if modTime ≠ 0 then headerSet hdrs1 "Last-Modified" (formatTime modTime)
    else hdrs1
  { status := 200, headers := hdrs2, bodyWritten := content }

/-- The weak validator computed by the handler:
`fmt.Sprintf("W/\x22%s-%d-%s\x22", i.Name(), i.Size(), commit)`. -/
def etagOf (info : StatInfo) (commit : String) : String :=
  "W/\"" ++ info.name ++ "-" ++ toString info.size ++ "-" ++ commit ++ "\""

/-- The default file served when no other asset matches (`defaultFile`). -/
def defaultFile : String := "index.html"

/-- The embedded bundle's directory name; the source names this constant
embedPrefix. -/
def embedDir : String := "build"

/-- The tail of `fileHandler2` after a handle `f` was successfully opened:
stat it (403 with the stat error text on failure), check it is an
`io.ReadSeeker`, set the ETag header and delegate to `http.ServeContent`.
On the non-seekable branch the Go code evaluates `err.Error()` although
`err` is necessarily nil there (the stat error was already returned), a nil
interface dereference: that branch panics instead of responding. -/
def serveFound (commit name : String) (hdrs : Headers) (fd : FileData) :
    HResult :=
  match statOf fd with
  | .error msg => .resp (httpError hdrs msg 403)
  | .ok info =>
    if fd.seekable then
      .resp (serveContent (headerSet hdrs "ETag" (etagOf info commit)) name
        info.modTime fd.content)
    else .panicked

/-- The name the handler resolves: `filepath.Clean(strings.TrimPrefix(path,
"/"))`, with the root request rewritten to `filepath.Join(dir,
defaultFile)`. -/
def effName (dir path : String) : String :=
  let n := clean (trimSlash path)
  if n = "." then join2 dir defaultFile else n

/-- The headers after the root-request special case, which sets
`Content-Type: text/html` eagerly. -/
def startHeaders (path : String) (hdrs : Headers) : Headers :=
  if clean (trimSlash path) = "." then headerSet hdrs "Content-Type" "text/html"
  else hdrs

/-- Translation of `fileHandler2`'s request function: resolve the name, try
to open it (note the root case opens `Join(dir, Join(dir, defaultFile))`,
the doubled prefix, exactly as the source does), fall back to the default
file on a does-not-exist error (forcing `Content-Type: text/html`), answer
204 with the open error's text when that also fails, and otherwise serve
the opened handle.  The trace records the `Open` calls and the
open/close balance of the handle (`defer f.Close()`). -/
def fileHandler2 (openF : String → Except OpenError FileData)
    (dir commit : String) (req : Request) (hdrs0 : Headers) :
    HResult × Trace :=
  match openF (join2 dir (effName dir req.path)) with
  | .ok fd =>
    (serveFound commit (effName dir req.path) (startHeaders req.path hdrs0) fd,
     ⟨[join2 dir (effName dir req.path)], 1, 1⟩)
  | .error e =>
    if e = OpenError.notExist then
      match openF (join2 dir defaultFile) with
      | .ok fd =>
        (serveFound commit (effName dir req.path)
          (headerSet (startHeaders req.path hdrs0) "Content-Type" "text/html") fd,
         ⟨[join2 dir (effName dir req.path), join2 dir defaultFile], 1, 1⟩)
      | .error e2 =>
        (.resp (httpError (startHeaders req.path hdrs0) (errText e2) 204),
         ⟨[join2 dir (effName dir req.path), join2 dir defaultFile], 0, 0⟩)
    else
      (.resp (httpError (startHeaders req.path hdrs0) (errText e) 204),
       ⟨[join2 dir (effName dir req.path)], 0, 0⟩)

/-- Association-list lookup used by both source models. -/
def lookupEntry {α : Type} : List (String × α) → String → Option α
  | [], _ => none
  | (k, v) :: rest, key => if k = key then some v else lookupEntry rest key

/-- A missing entry surfaces as a does-not-exist open error. -/
def fromLookup : Option (Except OpenError FileData) →
    Except OpenError FileData
  | some r => r
  | none => .error .notExist

/-- Open on the embedded bundle (`embed.FS`): names failing `fs.ValidPath`
find nothing and surface as does-not-exist; otherwise the bundle is
consulted. -/
def embedOpen (bundle : List (String × Except OpenError FileData))
    (name : String) : Except OpenError FileData :=
  if validPath name then fromLookup (lookupEntry bundle name)
  else .error .notExist

/-- Open on an external directory (`os.DirFS(root)`): names failing
`fs.ValidPath` are rejected with an invalid-argument error before any
filesystem access; valid names are opened at `root ++ "/" ++ name` in the
ambient filesystem `global`. -/
def dirOpen (global : List (String × Except OpenError FileData))
    (root : String) (name : String) : Except OpenError FileData :=
  if validPath name then fromLookup (lookupEntry global (root ++ "/" ++ name))
  else .error .invalid

/-- The absolute paths `os.DirFS(root)` actually passes to the operating
system for a list of `Open` arguments: invalid names never reach the OS. -/
def osOpens (root : String) (names : List String) : List String :=
  names.filterMap (fun n => if validPath n then some (root ++ "/" ++ n) else none)

/-- `mwSetCacheControl`: adds the Cache-Control header to the response
writer's header map before invoking the inner handler. -/
def mwSetCacheControl (next : Headers → HResult × Trace) : HResult × Trace :=
  next (headerAdd [] "Cache-Control" "public, max-age=3600")

/-- `NewAssetHandler`: external directory mode for a non-empty path (no
subdirectory prefixing), embedded bundle mode otherwise (entries under
"build"), wrapped in the cache-control middleware.  `global` is the
ambient filesystem seen by `os.DirFS`; `bundle` is the embedded asset
set. -/
def NewAssetHandler (assetsPath : String)
    (global bundle : List (String × Except OpenError FileData))
    (commit : String) (req : Request) : HResult × Trace :=
  if assetsPath ≠ "" then
    mwSetCacheControl (fun h => fileHandler2 (dirOpen global assetsPath) "" commit req h)
  else
    mwSetCacheControl (fun h => fileHandler2 (embedOpen bundle) embedDir commit req h)

/-- Status of the result, when a response was produced. -/
def resultStatus : HResult → Option Nat
  | .resp r => some r.status
  | .panicked => none

/-- Wire body of the result, when a response was produced. -/
def resultBody : HResult → Option String
  | .resp r => some (wireBody r)
  | .panicked => none

/-- A header of the result, when a response was produced. -/
def resultHeader (h : HResult) (k : String) : Option String :=
  match h with
  | .resp r => getHeader r.headers k
  | .panicked => none

/-- All headers of the result (empty for a panic, which sends none). -/
def resultHeaders : HResult → Headers
  | .resp r => r.headers
  | .panicked => []

/-- The bytes the handler wrote to the body, when a response was produced
(they reach the wire only if `bodyAllowed` holds for the status). -/
def resultWritten : HResult → Option String
  | .resp r => some r.bodyWritten
  | .panicked => none

/-- The header the cache-control middleware adds on every request. -/
def ccPair : String × String := ("Cache-Control", "public, max-age=3600")

/-- Place a file layout under a directory: the external directory's files
keyed by their absolute on-disk paths, or the same layout compiled into the
bundle under "build/".  Used to state that the two serving modes are given
equivalent file layouts. -/
def underDir (pre : String) (l : List (String × Except OpenError FileData)) :
    List (String × Except OpenError FileData) :=
  l.map (fun kv => (pre ++ kv.1, kv.2))

/-- Fixture: a well-behaved fallback document with content "A". -/
def fdIndexA : FileData := ⟨"index.html", 1, 0, "A", true, "", true⟩

/-- Fixture: a well-behaved script file with content "B". -/
def fdAppB : FileData := ⟨"app.js", 1, 0, "B", true, "", true⟩

/-- Fixture: a file named index.html with distinct content "Z". -/
def fdIndexZ : FileData := ⟨"index.html", 1, 0, "Z", true, "", true⟩

/-- Fixture: a file whose handle opens and stats fine but does not
implement `io.ReadSeeker` (as a directory handle of `embed.FS` would). -/
def fdNoSeek : FileData := ⟨"index.html", 1, 0, "A", true, "", false⟩

/-- Fixture: a plain two-file layout (fallback plus one script). -/
def layoutAB : List (String × Except OpenError FileData) :=
  [("index.html", .ok fdIndexA), ("app.js", .ok fdAppB)]

/-- Fixture: the embedded bundle holding `layoutAB` under "build/". -/
def bundleAB : List (String × Except OpenError FileData) :=
  underDir "build/" layoutAB

/-- Fixture: a bundle whose only file is non-seekable. -/
def bundleNoSeek : List (String × Except OpenError FileData) :=
  [("build/index.html", .ok fdNoSeek)]

/-- Fixture: a bundle that also contains an entry at the doubled prefix
path "build/build/index.html". -/
def bundleDoubled : List (String × Except OpenError FileData) :=
  [("build/index.html", .ok fdIndexA), ("build/build/index.html", .ok fdIndexZ)]

/-- Fixture: an on-disk tree at /srv with an unreadable file and a
fallback document. -/
def diskPerm : List (String × Except OpenError FileData) :=
  [("/srv/secret.txt", .error .permission), ("/srv/index.html", .ok fdIndexA)]

/-- Whether a name lies under a top-level "build" directory (its first six
characters are "build/").  Layouts without such entries are unaffected by
the doubled-prefix probe of the embedded mode's root branch. -/
def underBuild (k : String) : Bool :=
  decide (k.data.take 6 = "build/".data)

/-- The wire body produced once a handle is successfully opened, as a
function of the opened file's data alone: 403 carries the stat error text,
the non-seekable branch panics (no body), success streams the content. -/
def bodyFor (fd : FileData) : Option String :=
  if fd.statOk then (if fd.seekable then some fd.content else none)
  else some (fd.statMsg ++ "\n")

/-- The wire body of a whole request as a function of the first open's
result and the fallback open's result (a 204 wire body is empty). -/
def bodyOutcome (r1 r2 : Except OpenError FileData) : Option String :=
  match r1 with
  | .ok fd => bodyFor fd
  | .error e =>
    if e = OpenError.notExist then
      match r2 with
      | .ok fd => bodyFor fd
      | .error _ => some ""
    else some ""

theorem splitOnSlash_ne_nil (cs : List Char) : splitOnSlash cs ≠ [] := by
  cases cs with
  | nil => simp [splitOnSlash]
  | cons c rest =>
    simp only [splitOnSlash]
    split
    · simp
    · split <;> simp

theorem joinSlash_splitOnSlash (cs : List Char) :
    joinSlash (splitOnSlash cs) = cs := by
  induction cs with
  | nil => rfl
  | cons c rest ih =>
    simp only [splitOnSlash]
    by_cases hc : c = '/'
    · subst hc
      simp only [if_pos rfl]
      obtain ⟨s, ss, hss⟩ := List.exists_cons_of_ne_nil (splitOnSlash_ne_nil rest)
      rw [hss] at ih ⊢
      simpa [joinSlash] using ih
    · rw [if_neg hc]
      obtain ⟨s, ss, hss⟩ := List.exists_cons_of_ne_nil (splitOnSlash_ne_nil rest)
      rw [hss] at ih ⊢
      cases ss with
      | nil => simpa [joinSlash] using congrArg (c :: ·) ih
      | cons t ts =>
        simp only [joinSlash] at ih ⊢
        rw [List.cons_append, ih]

theorem cleanStep_push (rooted : Bool) (acc : List (List Char))
    (s : List Char) (hs : s ≠ ['.', '.']) :
    cleanStep rooted acc s = s :: acc := by
  simp [cleanStep, hs]

theorem foldl_cleanStep_no_dotdot (rooted : Bool) (segs : List (List Char))
    (h : ∀ s ∈ segs, s ≠ ['.', '.']) (acc : List (List Char)) :
    segs.foldl (cleanStep rooted) acc = segs.reverse ++ acc := by
  induction segs generalizing acc with
  | nil => simp
  | cons s rest ih =>
    rw [List.foldl_cons, cleanStep_push rooted acc s (h s (by simp)),
      ih (fun t ht => h t (by simp [ht])), List.reverse_cons, List.append_assoc]
    rfl

theorem validSeg_keep {s : List Char} (h : validSeg s = true) :
    keepSeg s = true := by
  unfold validSeg at h
  unfold keepSeg
  split at h
  · exact absurd h (by simp)
  · split at h
    · exact absurd h (by simp)
    · simp_all

theorem validSeg_ne_dotdot {s : List Char} (h : validSeg s = true) :
    s ≠ ['.', '.'] := by
  unfold validSeg at h
  intro hs
  simp [hs] at h

theorem validSeg_ne_nil {s : List Char} (h : validSeg s = true) : s ≠ [] := by
  unfold validSeg at h
  intro hs
  simp [hs] at h

/-- A string accepted by `fs.ValidPath` is unchanged by `filepath.Clean`. -/
theorem clean_of_valid (s : String) (h : validPath s = true) : clean s = s := by
  apply String.ext
  show cleanChars s.data = s.data
  unfold validPath at h
  split at h
  · rename_i hdot
    rw [hdot]
    decide
  · rename_i hdot
    have hall : ∀ a ∈ splitOnSlash s.data, validSeg a = true := by
      simpa [List.all_eq_true] using h
    have hne : s.data ≠ [] := by
      intro h0
      have := hall [] (by simp [h0, splitOnSlash])
      simp [validSeg] at this
    have hroot : isRooted s.data = false := by
      cases hd : s.data with
      | nil => exact absurd hd hne
      | cons c rest =>
        by_cases hc : c = '/'
        · exfalso
          have : [] ∈ splitOnSlash s.data := by
            rw [hd, hc]
            simp [splitOnSlash]
          have := hall [] this
          simp [validSeg] at this
        · simp [isRooted, hc]
    have hfilter : (splitOnSlash s.data).filter keepSeg = splitOnSlash s.data :=
      List.filter_eq_self.mpr (fun a ha => validSeg_keep (hall a ha))
    have hsegs : cleanSegs false
        ((splitOnSlash s.data).filter keepSeg) = (splitOnSlash s.data).reverse := by
      rw [hfilter]
      unfold cleanSegs
      rw [foldl_cleanStep_no_dotdot _ _
        (fun t ht => validSeg_ne_dotdot (hall t ht)) []]
      simp
    unfold cleanChars
    rw [if_neg hne]
    simp only [hroot, Bool.false_eq_true, if_false, hsegs, List.reverse_reverse,
      if_neg (splitOnSlash_ne_nil s.data), List.nil_append]
    exact joinSlash_splitOnSlash s.data

theorem splitOnSlash_append (a b : List Char) (h : ∀ c ∈ a, c ≠ '/') :
    splitOnSlash (a ++ '/' :: b) = a :: splitOnSlash b := by
  induction a with
  | nil => simp [splitOnSlash]
  | cons c a' ih =>
    have hc : c ≠ '/' := h c (by simp)
    have ih' := ih (fun d hd => h d (by simp [hd]))
    show splitOnSlash (c :: (a' ++ '/' :: b)) = (c :: a') :: splitOnSlash b
    simp only [splitOnSlash, if_neg hc]
    rw [ih']

theorem validPath_ne_empty {s : String} (h : validPath s = true) : s ≠ "" := by
  intro h0
  rw [h0] at h
  simp [validPath, splitOnSlash, validSeg] at h

/-- Prefixing an `fs.ValidPath`-valid name with the embed directory keeps it
valid (the name "." is excluded: the handler never opens "build/."). -/
theorem validPath_build {n : String} (h : validPath n = true)
    (hd : n ≠ ".") : validPath ("build/" ++ n) = true := by
  have hdata : ("build/" ++ n).data = "build".data ++ '/' :: n.data := by
    rw [String.data_append]
    rfl
  have hnd : n.data ≠ ['.'] := fun hc => hd (String.ext hc)
  have hall : ∀ a ∈ splitOnSlash n.data, validSeg a = true := by
    unfold validPath at h
    rw [if_neg hnd] at h
    simpa [List.all_eq_true] using h
  unfold validPath
  rw [hdata, splitOnSlash_append _ _ (by decide)]
  rw [if_neg (by simp)]
  simp only [List.all_cons, Bool.and_eq_true]
  exact ⟨by decide, by simpa [List.all_eq_true] using hall⟩

theorem string_append_cancel {p a b : String} (h : p ++ a = p ++ b) :
    a = b := by
  apply String.ext
  apply @List.append_cancel_left _ p.data
  rw [← String.data_append, ← String.data_append, h]

/-- C9: for every request in which a file handle is successfully opened
(directly or via fallback substitution), that handle is closed by the time
the handler finishes, on every exit path — successful streaming, stat
failure, and the non-seekable fault path (where the deferred close runs
during panic unwinding): the number of live handles acquired always equals
the number of closes. -/
theorem c9_handle_closed (openF : String → Except OpenError FileData)
    (dir commit : String) (req : Request) (hdrs0 : Headers) :
    (fileHandler2 openF dir commit req hdrs0).2.opened =
      (fileHandler2 openF dir commit req hdrs0).2.closed := by
  unfold fileHandler2
  cases openF (join2 dir (effName dir req.path)) with
  | ok fd => rfl
  | error e =>
    dsimp only
    by_cases he : e = OpenError.notExist
    · rw [if_pos he]
      cases openF (join2 dir defaultFile) with
      | ok fd => rfl
      | error e2 => rfl
    · rw [if_neg he]

/-- C1: the claim says a resolved handle that does not implement seeking is
answered with status 500.  The code instead evaluates `err.Error()` on that
branch although `err` is necessarily nil there (stat succeeded), a nil
interface dereference: the handler panics and no response is written.  The
deferred close still runs.  This theorem evaluates the code at such an
input. -/
theorem c1_nonseekable_code_panics :
    (NewAssetHandler "" [] bundleNoSeek "c" ⟨"/"⟩).1 = HResult.panicked ∧
    (NewAssetHandler "" [] bundleNoSeek "c" ⟨"/"⟩).2.opened = 1 ∧
    (NewAssetHandler "" [] bundleNoSeek "c" ⟨"/"⟩).2.closed = 1 := by
  refine ⟨rfl, rfl, rfl⟩

/-- C2: whenever both the resolved name and the fallback document fail to
open (in particular when neither exists in the asset source), the handler
responds 204 and the response body on the wire is empty. -/
theorem c2_no_bundle_204_empty (openF : String → Except OpenError FileData)
    (dir commit : String) (req : Request) (hdrs0 : Headers)
    (e1 e2 : OpenError)
    (h1 : openF (join2 dir (effName dir req.path)) = .error e1)
    (h2 : openF (join2 dir defaultFile) = .error e2) :
    resultStatus (fileHandler2 openF dir commit req hdrs0).1 = some 204 ∧
    resultBody (fileHandler2 openF dir commit req hdrs0).1 = some "" := by
  unfold fileHandler2
  rw [h1]
  dsimp only
  by_cases he : e1 = OpenError.notExist
  · rw [if_pos he, h2]
    exact ⟨rfl, rfl⟩
  · rw [if_neg he]
    exact ⟨rfl, rfl⟩

/-- C2 witness: a request against an empty embedded bundle gets a 204 with
an empty wire body. -/
theorem c2_witness :
    embedOpen [] (join2 "build" (effName "build" "/x")) =
      .error OpenError.notExist ∧
    resultStatus (fileHandler2 (embedOpen []) "build" "c" ⟨"/x"⟩ []).1 =
      some 204 ∧
    resultBody (fileHandler2 (embedOpen []) "build" "c" ⟨"/x"⟩ []).1 =
      some "" :=
  ⟨by decide, c2_no_bundle_204_empty (embedOpen []) "build" "c" ⟨"/x"⟩ []
    OpenError.notExist OpenError.notExist (by decide) (by decide)⟩

theorem getHeader_headerSet_same (hdrs : Headers) (k v : String) :
    getHeader (headerSet hdrs k v) k = some v := by
  induction hdrs with
  | nil => simp [headerSet, removeHeader, getHeader]
  | cons p rest ih =>
    obtain ⟨k', v'⟩ := p
    by_cases hk : k' = k
    · simpa [headerSet, removeHeader, hk] using ih
    · simpa [headerSet, removeHeader, getHeader, hk] using ih

theorem getHeader_headerSet_other (hdrs : Headers) (k k' v : String)
    (h : k' ≠ k) : getHeader (headerSet hdrs k' v) k = getHeader hdrs k := by
  have hk : k ≠ k' := fun hc => h hc.symm
  induction hdrs with
  | nil => simp [headerSet, removeHeader, getHeader, h]
  | cons p rest ih =>
    obtain ⟨a, b⟩ := p
    by_cases ha : a = k'
    · subst ha
      simpa [headerSet, removeHeader, getHeader, h] using ih
    · by_cases hak : a = k
      · subst hak
        simp [headerSet, removeHeader, getHeader, ha, hk]
      · simpa [headerSet, removeHeader, getHeader, ha, hak] using ih

theorem serveContent_other_header (hdrs : Headers) (name : String)
    (mt : Nat) (content : String) (k : String)
    (h1 : k ≠ "Content-Type") (h2 : k ≠ "Last-Modified") :
    getHeader (serveContent hdrs name mt content).headers k =
      getHeader hdrs k := by
  unfold serveContent
  dsimp only
  split
  · split
    · rw [getHeader_headerSet_other _ _ _ _ (fun hc => h2 hc.symm)]
    · rw [getHeader_headerSet_other _ _ _ _ (fun hc => h2 hc.symm),
        getHeader_headerSet_other _ _ _ _ (fun hc => h1 hc.symm)]
  · split
    · rfl
    · rw [getHeader_headerSet_other _ _ _ _ (fun hc => h1 hc.symm)]

theorem serveFound_ok_body (commit name : String) (hdrs : Headers)
    (fd : FileData) (h3 : fd.statOk = true) (h4 : fd.seekable = true) :
    resultBody (serveFound commit name hdrs fd) = some fd.content := by
  unfold serveFound statOf
  rw [if_pos h3]
  dsimp only
  rw [if_pos h4]
  rfl

theorem serveFound_ok_etag (commit name : String) (hdrs : Headers)
    (fd : FileData) (h3 : fd.statOk = true) (h4 : fd.seekable = true) :
    resultHeader (serveFound commit name hdrs fd) "ETag" =
      some (etagOf ⟨fd.name, fd.size, fd.modTime⟩ commit) := by
  unfold serveFound statOf
  rw [if_pos h3]
  dsimp only
  rw [if_pos h4]
  show getHeader (serveContent _ _ _ _).headers "ETag" = _
  rw [serveContent_other_header _ _ _ _ _ (by decide) (by decide),
    getHeader_headerSet_same]

theorem serveFound_ok_ct (commit name : String) (hdrs : Headers)
    (fd : FileData) (v : String) (h3 : fd.statOk = true)
    (h4 : fd.seekable = true)
    (hCT : getHeader hdrs "Content-Type" = some v) :
    resultHeader (serveFound commit name hdrs fd) "Content-Type" = some v := by
  unfold serveFound statOf
  rw [if_pos h3]
  dsimp only
  rw [if_pos h4]
  show getHeader (serveContent _ _ _ _).headers "Content-Type" = _
  have hCT' : getHeader (headerSet hdrs "ETag"
      (etagOf ⟨fd.name, fd.size, fd.modTime⟩ commit)) "Content-Type" = some v := by
    rw [getHeader_headerSet_other _ _ _ _ (by decide)]
    exact hCT
  unfold serveContent
  dsimp only
  rw [hCT']
  dsimp only
  split
  · rw [getHeader_headerSet_other _ _ _ _ (by decide)]
    exact hCT'
  · exact hCT'

/-- C10 counterexample: a permission-failing open with the fallback present
gives a 204 whose wire body is empty, not the open error's text — writes to
a 204 response are discarded by the server, so the response does not carry
the error text as the claim states. -/
theorem c10_counterexample :
    resultStatus (NewAssetHandler "/srv" diskPerm [] "c" ⟨"/secret.txt"⟩).1 =
      some 204 ∧
    resultBody (NewAssetHandler "/srv" diskPerm [] "c" ⟨"/secret.txt"⟩).1 =
      some "" ∧
    resultBody (NewAssetHandler "/srv" diskPerm [] "c" ⟨"/secret.txt"⟩).1 ≠
      some (errText OpenError.permission ++ "\n") := by
  refine ⟨rfl, rfl, by decide⟩

/-- C10 (amended): for every request whose first open fails with an error
other than does-not-exist, the handler does not attempt the fallback
document at all (the only open call is the requested name) and responds
with status 204; the open error's text is handed to the error writer, but
a 204 response carries no body, so the wire body is empty — even when the
fallback document exists in the asset source. -/
theorem c10_no_fallback_204 (openF : String → Except OpenError FileData)
    (dir commit : String) (req : Request) (hdrs0 : Headers) (e : OpenError)
    (fd : FileData)
    (h1 : openF (join2 dir (effName dir req.path)) = .error e)
    (h2 : e ≠ OpenError.notExist)
    (h3 : openF (join2 dir defaultFile) = .ok fd) :
    resultStatus (fileHandler2 openF dir commit req hdrs0).1 = some 204 ∧
    resultWritten (fileHandler2 openF dir commit req hdrs0).1 =
      some (errText e ++ "\n") ∧
    resultBody (fileHandler2 openF dir commit req hdrs0).1 = some "" ∧
    (fileHandler2 openF dir commit req hdrs0).2.openCalls =
      [join2 dir (effName dir req.path)] := by
  unfold fileHandler2
  rw [h1]
  dsimp only
  rw [if_neg h2]
  exact ⟨rfl, rfl, rfl, rfl⟩

/-- C10 witness: the amended statement at the permission-error fixture. -/
theorem c10_witness :
    resultStatus (fileHandler2 (dirOpen diskPerm "/srv") "" "c"
      ⟨"/secret.txt"⟩ []).1 = some 204 ∧
    resultWritten (fileHandler2 (dirOpen diskPerm "/srv") "" "c"
      ⟨"/secret.txt"⟩ []).1 = some (errText OpenError.permission ++ "\n") ∧
    resultBody (fileHandler2 (dirOpen diskPerm "/srv") "" "c"
      ⟨"/secret.txt"⟩ []).1 = some "" ∧
    (fileHandler2 (dirOpen diskPerm "/srv") "" "c"
      ⟨"/secret.txt"⟩ []).2.openCalls =
      [join2 "" (effName "" "/secret.txt")] :=
  c10_no_fallback_204 (dirOpen diskPerm "/srv") "" "c" ⟨"/secret.txt"⟩ []
    OpenError.permission fdIndexA (by decide) (by decide) (by decide)

/-- C4: for every request whose first open fails with a does-not-exist
error, when the fallback document opens successfully (and is a regular
stat-able, seekable file), the response body equals the fallback document's
content and the Content-Type header is forced to text/html, overriding
extension-based inference. -/
theorem c4_fallback_substitution (openF : String → Except OpenError FileData)
    (dir commit : String) (req : Request) (hdrs0 : Headers) (fd : FileData)
    (h1 : openF (join2 dir (effName dir req.path)) =
      .error OpenError.notExist)
    (h2 : openF (join2 dir defaultFile) = .ok fd)
    (h3 : fd.statOk = true) (h4 : fd.seekable = true) :
    resultBody (fileHandler2 openF dir commit req hdrs0).1 =
      some fd.content ∧
    resultHeader (fileHandler2 openF dir commit req hdrs0).1 "Content-Type" =
      some "text/html" := by
  unfold fileHandler2
  rw [h1]
  dsimp only
  rw [if_pos rfl, h2]
  dsimp only
  refine ⟨serveFound_ok_body _ _ _ _ h3 h4, ?_⟩
  exact serveFound_ok_ct _ _ _ _ _ h3 h4 (getHeader_headerSet_same _ _ _)

/-- C4 witness: a miss against the embedded two-file bundle serves the
fallback content with Content-Type text/html. -/
theorem c4_witness :
    resultBody (fileHandler2 (embedOpen bundleAB) "build" "c"
      ⟨"/nonexistent/page"⟩ []).1 = some fdIndexA.content ∧
    resultHeader (fileHandler2 (embedOpen bundleAB) "build" "c"
      ⟨"/nonexistent/page"⟩ []).1 "Content-Type" = some "text/html" :=
  c4_fallback_substitution (embedOpen bundleAB) "build" "c"
    ⟨"/nonexistent/page"⟩ [] fdIndexA (by decide) (by decide) rfl rfl

/-- C5: on every successful resolution (direct or via fallback, with stat
succeeding and a seekable handle) the ETag header equals exactly
W/"name-size-buildCommit" built from the resolved file's stat and the
build-commit string; consequently two resolutions agreeing on name, size
and commit receive identical ETag values. -/
theorem c5_etag_format (openF : String → Except OpenError FileData)
    (dir commit : String) (req : Request) (hdrs0 : Headers) (fd : FileData)
    (hres : openF (join2 dir (effName dir req.path)) = .ok fd ∨
      (openF (join2 dir (effName dir req.path)) = .error OpenError.notExist ∧
       openF (join2 dir defaultFile) = .ok fd))
    (h3 : fd.statOk = true) (h4 : fd.seekable = true) :
    resultHeader (fileHandler2 openF dir commit req hdrs0).1 "ETag" =
      some ("W/\"" ++ fd.name ++ "-" ++ toString fd.size ++ "-" ++
        commit ++ "\"") ∧
    ∀ (openF2 : String → Except OpenError FileData) (dir2 : String)
      (req2 : Request) (hdrs2 : Headers) (fd2 : FileData),
      (openF2 (join2 dir2 (effName dir2 req2.path)) = .ok fd2 ∨
        (openF2 (join2 dir2 (effName dir2 req2.path)) =
          .error OpenError.notExist ∧
         openF2 (join2 dir2 defaultFile) = .ok fd2)) →
      fd2.statOk = true → fd2.seekable = true →
      fd2.name = fd.name → fd2.size = fd.size →
      resultHeader (fileHandler2 openF2 dir2 commit req2 hdrs2).1 "ETag" =
        resultHeader (fileHandler2 openF dir commit req hdrs0).1 "ETag" := by
  have main : ∀ (oF : String → Except OpenError FileData) (d : String)
      (rq : Request) (h0 : Headers) (f : FileData),
      (oF (join2 d (effName d rq.path)) = .ok f ∨
        (oF (join2 d (effName d rq.path)) = .error OpenError.notExist ∧
         oF (join2 d defaultFile) = .ok f)) →
      f.statOk = true → f.seekable = true →
      resultHeader (fileHandler2 oF d commit rq h0).1 "ETag" =
        some ("W/\"" ++ f.name ++ "-" ++ toString f.size ++ "-" ++
          commit ++ "\"") := by
    intro oF d rq h0 f hr hs hk
    rcases hr with hdirect | ⟨hmiss, hfall⟩
    · unfold fileHandler2
      rw [hdirect]
      dsimp only
      exact serveFound_ok_etag _ _ _ _ hs hk
    · unfold fileHandler2
      rw [hmiss]
      dsimp only
      rw [if_pos rfl, hfall]
      dsimp only
      exact serveFound_ok_etag _ _ _ _ hs hk
  refine ⟨main openF dir req hdrs0 fd hres h3 h4, ?_⟩
  intro oF2 d2 rq2 h2 f2 hr2 hs2 hk2 hname hsize
  rw [main oF2 d2 rq2 h2 f2 hr2 hs2 hk2,
    main openF dir req hdrs0 fd hres h3 h4, hname, hsize]

/-- C5 witness: the root request against the embedded two-file bundle
carries the expected weak validator. -/
theorem c5_witness :
    resultHeader (fileHandler2 (embedOpen bundleAB) "build" "c"
      ⟨"/"⟩ []).1 "ETag" =
      some ("W/\"" ++ fdIndexA.name ++ "-" ++ toString fdIndexA.size ++
        "-" ++ "c" ++ "\"") :=
  (c5_etag_format (embedOpen bundleAB) "build" "c" ⟨"/"⟩ [] fdIndexA
    (Or.inr ⟨by decide, by decide⟩) rfl rfl).1

theorem mem_removeHeader {p : String × String} {hdrs : Headers} {k : String}
    (hp : p ∈ hdrs) (hk : p.1 ≠ k) : p ∈ removeHeader hdrs k := by
  induction hdrs with
  | nil => cases hp
  | cons q rest ih =>
    obtain ⟨a, b⟩ := q
    rcases List.mem_cons.mp hp with heq | hmem
    · subst heq
      simp only [removeHeader]
      rw [if_neg hk]
      exact List.mem_cons_self _ _
    · simp only [removeHeader]
      split
      · exact ih hmem
      · exact List.mem_cons_of_mem _ (ih hmem)

theorem mem_headerSet_of_ne {p : String × String} {hdrs : Headers}
    {k v : String} (hp : p ∈ hdrs) (hk : p.1 ≠ k) :
    p ∈ headerSet hdrs k v :=
  List.mem_append_left _ (mem_removeHeader hp hk)

theorem cc_mem_httpError {hdrs : Headers} {msg : String} {code : Nat}
    (h : ccPair ∈ hdrs) : ccPair ∈ (httpError hdrs msg code).headers :=
  mem_headerSet_of_ne (mem_headerSet_of_ne h (by decide)) (by decide)

theorem cc_mem_serveContent {hdrs : Headers} {name : String} {mt : Nat}
    {content : String} (h : ccPair ∈ hdrs) :
    ccPair ∈ (serveContent hdrs name mt content).headers := by
  unfold serveContent
  dsimp only
  split <;> split <;>
    first
      | exact mem_headerSet_of_ne (mem_headerSet_of_ne h (by decide)) (by decide)
      | exact mem_headerSet_of_ne h (by decide)
      | exact h

theorem cc_mem_serveFound {commit name : String} {hdrs : Headers}
    {fd : FileData} (h : ccPair ∈ hdrs) :
    serveFound commit name hdrs fd = HResult.panicked ∨
    ccPair ∈ resultHeaders (serveFound commit name hdrs fd) := by
  unfold serveFound
  cases statOf fd with
  | error msg => exact Or.inr (cc_mem_httpError h)
  | ok info =>
    dsimp only
    split
    · exact Or.inr (cc_mem_serveContent (mem_headerSet_of_ne h (by decide)))
    · exact Or.inl rfl

theorem cc_mem_fileHandler2 (openF : String → Except OpenError FileData)
    (dir commit : String) (req : Request) (hdrs0 : Headers)
    (h0 : ccPair ∈ hdrs0) :
    (fileHandler2 openF dir commit req hdrs0).1 = HResult.panicked ∨
    ccPair ∈ resultHeaders (fileHandler2 openF dir commit req hdrs0).1 := by
  have hstart : ccPair ∈ startHeaders req.path hdrs0 := by
    unfold startHeaders
    split
    · exact mem_headerSet_of_ne h0 (by decide)
    · exact h0
  unfold fileHandler2
  cases openF (join2 dir (effName dir req.path)) with
  | ok fd => exact cc_mem_serveFound hstart
  | error e =>
    dsimp only
    by_cases he : e = OpenError.notExist
    · rw [if_pos he]
      cases openF (join2 dir defaultFile) with
      | ok fd =>
        exact cc_mem_serveFound (mem_headerSet_of_ne hstart (by decide))
      | error e2 => exact Or.inr (cc_mem_httpError hstart)
    · rw [if_neg he]
      exact Or.inr (cc_mem_httpError hstart)

/-- C8: for every request — in either serving mode and for every outcome
that produces a response (204 no-bundle, 403 stat failure, success; the
non-seekable branch panics and sends nothing) — the handler returned by
NewAssetHandler carries the Cache-Control "public, max-age=3600" header,
which the middleware added before invoking the inner handler. -/
theorem c8_cache_control (assetsPath : String)
    (global bundle : List (String × Except OpenError FileData))
    (commit : String) (req : Request)
    (h : (NewAssetHandler assetsPath global bundle commit req).1 ≠
      HResult.panicked) :
    ccPair ∈
      resultHeaders (NewAssetHandler assetsPath global bundle commit req).1 := by
  have hcc : ccPair ∈ headerAdd [] "Cache-Control" "public, max-age=3600" := by
    simp [headerAdd, ccPair]
  unfold NewAssetHandler mwSetCacheControl at h ⊢
  by_cases hp : assetsPath ≠ ""
  · rw [if_pos hp] at h ⊢
    rcases cc_mem_fileHandler2 (dirOpen global assetsPath) "" commit req _ hcc
      with hpan | hmem
    · exact absurd hpan h
    · exact hmem
  · rw [if_neg hp] at h ⊢
    rcases cc_mem_fileHandler2 (embedOpen bundle) embedDir commit req _ hcc
      with hpan | hmem
    · exact absurd hpan h
    · exact hmem

/-- C8 witness: even the degraded empty-bundle 204 response carries the
cache-control header. -/
theorem c8_witness :
    ccPair ∈ resultHeaders (NewAssetHandler "" [] [] "c" ⟨"/"⟩).1 :=
  c8_cache_control "" [] [] "c" ⟨"/"⟩ (by decide)

theorem validPath_no_dotdot {s : String} (h : validPath s = true) :
    hasDotDotSeg s = false := by
  unfold validPath at h
  unfold hasDotDotSeg
  split at h
  · rename_i hdot
    rw [hdot]
    decide
  · have hall := List.all_eq_true.mp h
    simp only [List.any_eq_false, decide_eq_true_eq]
    intro x hx
    exact validSeg_ne_dotdot (hall x hx)

theorem mem_osOpens {root g : String} {names : List String}
    (hg : g ∈ osOpens root names) :
    ∃ n, validPath n = true ∧ g = root ++ "/" ++ n := by
  unfold osOpens at hg
  rcases List.mem_filterMap.mp hg with ⟨n, _, hfn⟩
  by_cases hv : validPath n = true
  · rw [if_pos hv] at hfn
    exact ⟨n, hv, (Option.some.injEq _ _ ▸ hfn).symm⟩
  · rw [if_neg hv] at hfn
    cases hfn

/-- C6 counterexample: for the request path "/../../secret" the
canonicalization step (strip the leading separator, then clean) does not
neutralize the traversal: the cleaned name still contains ".." segments
and is passed exactly as-is to the asset source's Open as the lookup name,
contradicting the claim that canonicalization neutralizes traversal before
any lookup. -/
theorem c6_counterexample :
    clean (trimSlash "/../../secret") = "../../secret" ∧
    hasDotDotSeg (clean (trimSlash "/../../secret")) = true ∧
    (NewAssetHandler "/srv" diskPerm [] "c" ⟨"/../../secret"⟩).2.openCalls =
      ["../../secret"] := by
  refine ⟨by decide, by decide, rfl⟩

/-- C6 (amended): cleaning removes internal traversal but keeps leading
".." segments; names that still escape after cleaning are rejected by the
source's `fs.ValidPath` validation before any filesystem access, so in
external-directory mode every path that reaches the operating system lies
inside the configured root: it is root/"n" for a valid, traversal-free
relative name n.  No file outside the configured root is ever opened. -/
theorem c6_no_escape (root : String)
    (global bundle : List (String × Except OpenError FileData))
    (commit : String) (req : Request) (hroot : root ≠ "") (g : String)
    (hg : g ∈ osOpens root
      (NewAssetHandler root global bundle commit req).2.openCalls) :
    ∃ n, validPath n = true ∧ hasDotDotSeg n = false ∧
      g = root ++ "/" ++ n := by
  obtain ⟨n, hv, hgeq⟩ := mem_osOpens hg
  exact ⟨n, hv, validPath_no_dotdot hv, hgeq⟩

/-- C6 witness: the one OS access for the request "/secret.txt" against
the /srv tree is /srv/secret.txt, inside the root. -/
theorem c6_witness :
    ∃ n, validPath n = true ∧ hasDotDotSeg n = false ∧
      "/srv/secret.txt" = "/srv" ++ "/" ++ n :=
  c6_no_escape "/srv" diskPerm [] "c" ⟨"/secret.txt"⟩ (by decide)
    "/srv/secret.txt" (by decide)

/-- C3 counterexample: an embedded bundle that contains the fallback
document (content "A") but also an entry at the doubled-prefix path
build/build/index.html (content "Z") answers the root request with "Z",
not the fallback document's content — because the root branch joins the
prefix twice: Open(Join(dir, Join(dir, defaultFile))). -/
theorem c3_counterexample :
    lookupEntry bundleDoubled (join2 embedDir defaultFile) =
      some (Except.ok fdIndexA) ∧
    fdIndexA.content = "A" ∧
    resultBody (NewAssetHandler "" [] bundleDoubled "c" ⟨"/"⟩).1 = some "Z" ∧
    resultBody (NewAssetHandler "" [] bundleDoubled "c" ⟨"/"⟩).1 ≠
      some fdIndexA.content := by
  refine ⟨rfl, rfl, rfl, by decide⟩

/-- C3 (amended): for every asset source containing the fallback document
as a regular (stat-able, seekable) file — and, in embedded mode, no entry
at the doubled-prefix path build/build/index.html, which the root branch
probes first — a request for the root path "/" returns the fallback
document's content with the Content-Type header set to text/html, in both
the embedded-bundle mode (prefix "build") and the external-directory mode
(empty prefix). -/
theorem c3_root_serves_fallback (commit root : String)
    (global bundle : List (String × Except OpenError FileData))
    (fdE fdB : FileData) (hroot : root ≠ "")
    (hE : lookupEntry global (root ++ "/" ++ "index.html") =
      some (.ok fdE))
    (hE1 : fdE.statOk = true) (hE2 : fdE.seekable = true)
    (hD : lookupEntry bundle "build/build/index.html" = none)
    (hB : lookupEntry bundle "build/index.html" = some (.ok fdB))
    (hB1 : fdB.statOk = true) (hB2 : fdB.seekable = true) :
    (resultBody (NewAssetHandler root global bundle commit ⟨"/"⟩).1 =
       some fdE.content ∧
     resultHeader (NewAssetHandler root global bundle commit ⟨"/"⟩).1
       "Content-Type" = some "text/html") ∧
    (resultBody (NewAssetHandler "" global bundle commit ⟨"/"⟩).1 =
       some fdB.content ∧
     resultHeader (NewAssetHandler "" global bundle commit ⟨"/"⟩).1
       "Content-Type" = some "text/html") := by
  have hCT0 : ∀ h0 : Headers, getHeader (startHeaders "/" h0) "Content-Type" =
      some "text/html" := by
    intro h0
    unfold startHeaders
    rw [if_pos (by decide)]
    exact getHeader_headerSet_same _ _ _
  constructor
  · unfold NewAssetHandler
    rw [if_pos hroot]
    unfold mwSetCacheControl fileHandler2
    dsimp only
    rw [(by decide : join2 "" (effName "" "/") = "index.html")]
    unfold dirOpen
    rw [if_pos (by decide : validPath "index.html" = true), hE]
    dsimp only [fromLookup]
    exact ⟨serveFound_ok_body _ _ _ _ hE1 hE2,
      serveFound_ok_ct _ _ _ _ _ hE1 hE2 (hCT0 _)⟩
  · unfold NewAssetHandler
    rw [if_neg (by simp)]
    unfold mwSetCacheControl fileHandler2
    dsimp only
    rw [(by decide : join2 embedDir (effName embedDir "/") =
      "build/build/index.html")]
    unfold embedOpen
    rw [if_pos (by decide : validPath "build/build/index.html" = true), hD]
    dsimp only [fromLookup]
    rw [if_pos rfl]
    rw [(by decide : join2 embedDir defaultFile = "build/index.html"),
      if_pos (by decide : validPath "build/index.html" = true), hB]
    dsimp only [fromLookup]
    refine ⟨serveFound_ok_body _ _ _ _ hB1 hB2,
      serveFound_ok_ct _ _ _ _ _ hB1 hB2 ?_⟩
    exact getHeader_headerSet_same _ _ _

/-- C3 witness: the amended statement at the two-file fixtures in both
modes. -/
theorem c3_witness :
    (resultBody (NewAssetHandler "/srv" diskPerm bundleAB "c" ⟨"/"⟩).1 =
       some fdIndexA.content ∧
     resultHeader (NewAssetHandler "/srv" diskPerm bundleAB "c" ⟨"/"⟩).1
       "Content-Type" = some "text/html") ∧
    (resultBody (NewAssetHandler "" diskPerm bundleAB "c" ⟨"/"⟩).1 =
       some fdIndexA.content ∧
     resultHeader (NewAssetHandler "" diskPerm bundleAB "c" ⟨"/"⟩).1
       "Content-Type" = some "text/html") :=
  c3_root_serves_fallback "c" "/srv" diskPerm bundleAB fdIndexA fdIndexA
    (by decide) (by decide) rfl rfl (by decide) (by decide) rfl rfl

theorem serveFound_resultBody (commit name : String) (hdrs : Headers)
    (fd : FileData) :
    resultBody (serveFound commit name hdrs fd) = bodyFor fd := by
  unfold serveFound statOf bodyFor
  by_cases hs : fd.statOk = true
  · rw [if_pos hs, if_pos hs]
    dsimp only
    by_cases hk : fd.seekable = true
    · rw [if_pos hk, if_pos hk]
      rfl
    · rw [if_neg hk, if_neg hk]
      rfl
  · rw [if_neg hs, if_neg hs]
    rfl

theorem fileHandler2_resultBody (openF : String → Except OpenError FileData)
    (dir commit : String) (req : Request) (hdrs0 : Headers) :
    resultBody (fileHandler2 openF dir commit req hdrs0).1 =
      bodyOutcome (openF (join2 dir (effName dir req.path)))
        (openF (join2 dir defaultFile)) := by
  unfold fileHandler2 bodyOutcome
  cases openF (join2 dir (effName dir req.path)) with
  | ok fd => exact serveFound_resultBody _ _ _ _
  | error e =>
    dsimp only
    by_cases he : e = OpenError.notExist
    · rw [if_pos he, if_pos he]
      cases openF (join2 dir defaultFile) with
      | ok fd => exact serveFound_resultBody _ _ _ _
      | error e2 => rfl
    · rw [if_neg he, if_neg he]
      rfl

theorem lookupEntry_underDir (pre : String)
    (l : List (String × Except OpenError FileData)) (k : String) :
    lookupEntry (underDir pre l) (pre ++ k) = lookupEntry l k := by
  induction l with
  | nil => rfl
  | cons kv rest ih =>
    obtain ⟨a, v⟩ := kv
    simp only [underDir, List.map_cons, lookupEntry]
    by_cases ha : a = k
    · rw [if_pos (by rw [ha]), if_pos ha]
    · rw [if_neg (fun hc => ha (string_append_cancel hc)), if_neg ha]
      simpa [underDir] using ih

theorem lookupEntry_not_underBuild
    (l : List (String × Except OpenError FileData))
    (hkeys : ∀ kv ∈ l, underBuild kv.1 = false) (k : String)
    (hk : underBuild k = true) : lookupEntry l k = none := by
  induction l with
  | nil => rfl
  | cons kv rest ih =>
    obtain ⟨a, v⟩ := kv
    simp only [lookupEntry]
    have ha : a ≠ k := by
      intro hc
      have := hkeys (a, v) (by simp)
      rw [hc, hk] at this
      cases this
    rw [if_neg ha]
    exact ih (fun p hp => hkeys p (by simp [hp]))

theorem dirOpen_underDir (l : List (String × Except OpenError FileData))
    (root n : String) (hv : validPath n = true) :
    dirOpen (underDir (root ++ "/") l) root n =
      fromLookup (lookupEntry l n) := by
  unfold dirOpen
  rw [if_pos hv]
  rw [show root ++ "/" ++ n = (root ++ "/") ++ n from rfl,
    lookupEntry_underDir]

theorem embedOpen_underDir (l : List (String × Except OpenError FileData))
    (n : String) (hv : validPath ("build/" ++ n) = true) :
    embedOpen (underDir "build/" l) ("build/" ++ n) =
      fromLookup (lookupEntry l n) := by
  unfold embedOpen
  rw [if_pos hv, lookupEntry_underDir]

/-- C7 counterexample: the same two-file layout served in the two modes
gives different bodies for the request path "/../x": in external-directory
mode `os.DirFS` rejects the cleaned name "../x" as invalid (a
non-does-not-exist error), so the handler answers 204 with an empty body,
while in embedded mode `filepath.Join("build", "../x")` collapses to "x",
which misses and serves the fallback with body "A". -/
theorem c7_counterexample :
    resultBody (NewAssetHandler "/srv" (underDir "/srv/" layoutAB) []
      "c" ⟨"/../x"⟩).1 = some "" ∧
    resultBody (NewAssetHandler "" [] bundleAB "c" ⟨"/../x"⟩).1 = some "A" ∧
    resultBody (NewAssetHandler "/srv" (underDir "/srv/" layoutAB) []
      "c" ⟨"/../x"⟩).1 ≠
      resultBody (NewAssetHandler "" [] bundleAB "c" ⟨"/../x"⟩).1 := by
  refine ⟨rfl, rfl, by decide⟩

/-- C7 (amended): for every request path whose canonicalized relative form
is a valid source name (`fs.ValidPath` accepts it — so no leading ".."
traversal and no second leading slash remains), the handler built in
embedded-bundle mode (prefix "build") and the handler built in
external-directory mode (empty prefix) over asset sources with equivalent
file layouts produce byte-identical response bodies, provided the layout
has no entries under a top-level "build" directory (such entries collide
with the doubled-prefix probe of the embedded root branch). -/
theorem c7_mode_equivalence (L : List (String × Except OpenError FileData))
    (root commit : String) (req : Request) (hroot : root ≠ "")
    (hkeys : ∀ kv ∈ L, underBuild kv.1 = false)
    (hvalid : validPath (clean (trimSlash req.path)) = true) :
    resultBody (NewAssetHandler root (underDir (root ++ "/") L) [] commit
      req).1 =
    resultBody (NewAssetHandler "" [] (underDir "build/" L) commit req).1 := by
  unfold NewAssetHandler
  rw [if_pos hroot, if_neg (by simp)]
  unfold mwSetCacheControl
  rw [fileHandler2_resultBody, fileHandler2_resultBody]
  have hfE : dirOpen (underDir (root ++ "/") L) root (join2 "" defaultFile) =
      fromLookup (lookupEntry L "index.html") := by
    rw [(by decide : join2 "" defaultFile = "index.html")]
    exact dirOpen_underDir L root "index.html" (by decide)
  have hfB : embedOpen (underDir "build/" L) (join2 embedDir defaultFile) =
      fromLookup (lookupEntry L "index.html") := by
    have h := embedOpen_underDir L "index.html" (by decide)
    rw [(by decide : ("build/" : String) ++ "index.html" =
      "build/index.html")] at h
    rw [(by decide : join2 embedDir defaultFile = "build/index.html")]
    exact h
  by_cases hdot : clean (trimSlash req.path) = "."
  · have heffE : effName "" req.path = "index.html" := by
      unfold effName
      dsimp only
      rw [if_pos hdot]
      decide
    have heffB : effName embedDir req.path = "build/index.html" := by
      unfold effName
      dsimp only
      rw [if_pos hdot]
      decide
    rw [heffE, heffB, (by decide : join2 "" "index.html" = "index.html"),
      dirOpen_underDir L root "index.html" (by decide),
      (by decide : join2 embedDir "build/index.html" =
        "build/build/index.html")]
    have h1B : embedOpen (underDir "build/" L) "build/build/index.html" =
        Except.error OpenError.notExist := by
      have h := embedOpen_underDir L "build/index.html" (by decide)
      rw [(by decide : ("build/" : String) ++ "build/index.html" =
        "build/build/index.html")] at h
      rw [h, lookupEntry_not_underBuild L hkeys "build/index.html" (by decide)]
      rfl
    rw [h1B, hfE, hfB]
    cases hL : lookupEntry L "index.html" with
    | none => rfl
    | some r =>
      cases r with
      | ok fd => rfl
      | error e =>
        by_cases he : e = OpenError.notExist
        · subst he
          rfl
        · unfold bodyOutcome fromLookup
          dsimp only
          rw [if_neg he, if_pos rfl]
  · have heff : ∀ d, effName d req.path = clean (trimSlash req.path) := by
      intro d
      unfold effName
      dsimp only
      rw [if_neg hdot]
    have hne : clean (trimSlash req.path) ≠ "" := validPath_ne_empty hvalid
    have hjE : join2 "" (clean (trimSlash req.path)) =
        clean (trimSlash req.path) := by
      unfold join2
      rw [if_pos rfl, if_neg hne, clean_of_valid _ hvalid]
    have hjB : join2 embedDir (clean (trimSlash req.path)) =
        "build/" ++ clean (trimSlash req.path) := by
      unfold join2
      rw [if_neg (by decide : ¬(embedDir = ""))]
      rw [(by decide : (embedDir : String) ++ "/" = "build/")]
      exact clean_of_valid _ (validPath_build hvalid hdot)
    rw [heff, heff, hjE, hjB, dirOpen_underDir L root _ hvalid,
      embedOpen_underDir L _ (validPath_build hvalid hdot), hfE, hfB]

/-- C7 witness: the amended equivalence at the two-file layout fixture for
the request "/app.js". -/
theorem c7_witness :
    resultBody (NewAssetHandler "/srv" (underDir ("/srv" ++ "/") layoutAB) []
      "c" ⟨"/app.js"⟩).1 =
    resultBody (NewAssetHandler "" [] (underDir "build/" layoutAB) "c"
      ⟨"/app.js"⟩).1 :=
  c7_mode_equivalence layoutAB "/srv" "c" ⟨"/app.js"⟩ (by decide) (by decide)
    (by decide)
